import Mathlib

/-!
Verification of the Cisco ACL renderer (`lib/cisco.py`): a shallow embedding
of its data model and rendering functions, followed by theorems checking the
specification's claims about it.

Python strings are embedded as Lean `String`; the Python string methods used
by the renderer (`split`, `join`, `startswith` via `find(..) == 0`, `isdigit`,
`int`, `lower`, slicing) are given explicit character-list implementations so
that every definition evaluates inside the kernel.
-/

/-- `s.split(c)` for a single-character separator, on character lists. -/
def splitCh (c : Char) : List Char → List (List Char)
  | [] => [[]]
  | x :: xs =>
    if x = c then [] :: splitCh c xs
    else
      match splitCh c xs with
      | [] => [[x]]
      | y :: ys => (x :: y) :: ys

/-- Python `s.split('\n')`. -/
def pySplitNl (s : String) : List String :=
  (splitCh '\n' s.data).map (fun l => String.mk l)

/-- Python `sep.join(lines)`. -/
def pyJoin (sep : String) : List String → String
  | [] => ""
  | [a] => a
  | a :: b :: rest => a ++ sep ++ pyJoin sep (b :: rest)

/-- Python `s.find(pat) == 0`, i.e. `s.startswith(pat)`. -/
def pyStartsWith (s pat : String) : Bool := pat.data.isPrefixOf s.data

/-- Python `s.endswith(pat)` (used only to state claims about output lines). -/
def pyEndsWith (s pat : String) : Bool := pat.data.isSuffixOf s.data

/-- Python `s.isdigit()`: non-empty and all digits. -/
def pyIsDigit (s : String) : Bool := !s.data.isEmpty && s.data.all Char.isDigit

/-- Python `int(s)` on a digit string. -/
def pyInt (s : String) : Nat := s.data.foldl (fun a c => a * 10 + (c.toNat - 48)) 0

/-- ASCII lower-casing of one character. -/
def lowerCh (c : Char) : Char :=
  if 65 ≤ c.toNat ∧ c.toNat ≤ 90 then Char.ofNat (c.toNat + 32) else c

/-- Python `s.lower()`. -/
def pyLower (s : String) : String := String.mk (s.data.map lowerCh)

/-- Python `s[:n]`. -/
def pyTake (s : String) (n : Nat) : String := String.mk (s.data.take n)

/-- `sub` occurs as a contiguous substring of `s`. -/
def hasSub (sub s : String) : Prop := sub.data <:+: s.data

instance (sub s : String) : Decidable (hasSub sub s) := by
  unfold hasSub
  infer_instance

/-- A Python protocol value: either a name string or a numeric protocol. -/
inductive Proto where
  | str (s : String)
  | num (n : Nat)
deriving DecidableEq, Repr

/-- Modelled from the spec: the system protocol table queried by
`socket.getprotobyname` (an external facility, not part of this repository).
Spec 4.1: it "maps a textual protocol name to its standard numeric protocol
number"; resolution fails for unknown names and for the literal `ip`, which
the spec and the source's own docstring require to pass through unchanged. -/
def getprotobyname (s : String) : Option Nat :=
  if s = "tcp" then some 6
  else if s = "udp" then some 17
  else if s = "icmp" then some 1
  else if s = "igmp" then some 2
  else if s = "gre" then some 47
  else if s = "esp" then some 50
  else if s = "ah" then some 51
  else if s = "sctp" then some 132
  else none

/-- `FixupProtocol` from `cisco.py`: numeric representation of the protocol;
string inputs are looked up (lower-cased) in the protocol table, and kept
unchanged when the lookup fails; non-string inputs pass through. -/
def FixupProtocol (proto : Proto) : Proto :=
  match proto with
  | .num n => .num n
  | .str s =>
    match getprotobyname (pyLower s) with
    | some n => .num n
    | none => .str s

/-- Rendering of a protocol value by Python `'%s' % proto`. -/
def protoToStr : Proto → String
  | .str s => s
  | .num n => toString n

/-- `_ACTION_TABLE` from `cisco.py`. -/
def ACTION_TABLE (a : String) : Option String :=
  if a = "accept" then some "permit"
  else if a = "deny" then some "deny"
  else if a = "reject" then some "deny"
  else if a = "next" then some "! next"
  else if a = "reject-with-tcp-rst" then some "deny"
  else none

/-- An address value as the renderer sees it (`nacaddr.IPv4` / `nacaddr.IPv6`):
the family tag stands for the concrete Python class, the string fields for the
derived `ip`/`network`/`netmask`/`hostmask` representations, `cidr` for the
object's own `str()` form, and `parent_token` for the group identity token. -/
structure Addr where
  family : Nat
  ip : String
  network : String
  netmask : String
  hostmask : String
  cidr : String
  prefixlen : Nat
  numhosts : Nat
  parent_token : String
deriving DecidableEq, Repr

/-- One entry of a term's verbatim list: `next.value[0]` (target platform)
and `next.value[1]` (raw text). -/
structure Verbatim where
  platform : String
  text : String
deriving DecidableEq, Repr

/-- The upstream policy term (`policy.Term`) as read by this renderer:
exactly the attributes `cisco.py` accesses. -/
structure PTerm where
  name : String
  comment : List String
  action : List String
  protocol : List Proto
  source_address : List Addr
  source_address_exclude : List Addr
  destination_address : List Addr
  destination_address_exclude : List Addr
  source_port : List (Nat × Nat)
  destination_port : List (Nat × Nat)
  option : List String
  verbatim : List Verbatim
  address : List Addr
  logging : Bool
  counter : Bool
deriving DecidableEq, Repr

/-- Modelled from the spec: `policy.Term.GetAddressOfVersion` (upstream of this
module) — spec 4.1, the "family-filtered address set". -/
def GetAddressOfVersion (addrs : List Addr) (af : Nat) : List Addr :=
  addrs.filter (fun a => a.family = af)

/-- The policy header as read by this renderer: `platforms`, `target`,
`comment` are direct attributes; `filterOptions`/`filterName` stand for
`header.FilterOptions('cisco')`/`header.FilterName('cisco')`, which are
supplied by the upstream policy module (spec 6: the header "exposes: declared
target platforms, per-platform option list, per-platform filter name, and
comment lines"). -/
structure Header where
  platforms : List String
  target : String
  comment : List String
  filterOptions : List String
  filterName : String
deriving DecidableEq, Repr

/-- A policy: the ordered `(header, terms)` pairs (spec 6). -/
structure Policy where
  filters : List (Header × List PTerm)
deriving DecidableEq, Repr

/-- Modelled from the spec: `policy.Policy.headers` — the headers of the
`(header, terms)` pairs, in order. -/
def Policy.headers (p : Policy) : List Header := p.filters.map Prod.fst

/-- The errors `cisco.py` raises. -/
inductive CiscoError where
  | unsupportedCiscoAccessList (msg : String)
  | standardAclTerm (msg : String)
  | noCiscoPolicy (msg : String)
deriving DecidableEq, Repr

/-- The address-exclusion primitive `nacaddr.ExcludeAddrs`, supplied by an
external address-arithmetic library (spec 4.1: "not re-specified here");
the development is parametric in it. -/
abbrev ExclFn := List Addr → List Addr → List Addr

/-- A trivial instantiation of the exclusion parameter, used only to
evaluate theorems at concrete inputs. -/
def exclKeep : ExclFn := fun a _ => a

/-- `str(self.term.action[0])` pushed through `_ACTION_TABLE.get`; a missing
key formats as Python `None`. -/
def actionStr (t : PTerm) : String :=
  (ACTION_TABLE (t.action.headD "")).getD "None"

/-- The verbatim short-circuit common to all three term renderers: the `for`
loop over `self.term.verbatim` returns at the end of its first iteration, so
only the first entry is examined, and its raw text is appended only when its
platform is `'cisco'`. Callers invoke this only when the list is non-empty. -/
def verbatimFirst : List Verbatim → List String
  | [] => []
  | v :: _ => if v.platform = "cisco" then [v.text] else []

/-- `TermStandard.__init__` sanity checks for standard ACLs (`cisco.py`
lines 86-106), in source order. -/
def termStandardCheck (t : PTerm) : Except CiscoError Unit :=
  if !t.protocol.isEmpty then
    .error (.standardAclTerm "Standard ACLs cannot specify protocols")
  else if !t.source_address.isEmpty || !t.source_address_exclude.isEmpty
      || !t.destination_address.isEmpty || !t.destination_address_exclude.isEmpty then
    .error (.standardAclTerm "Standard ACLs cannot use source or destination addresses")
  else if !t.option.isEmpty then
    .error (.standardAclTerm "Standard ACLs prohibit use of options")
  else if !t.source_port.isEmpty || !t.destination_port.isEmpty then
    .error (.standardAclTerm "Standard ACLs prohibit use of port numbers")
  else if t.counter then
    .error (.standardAclTerm "Counters are not implemented in standard ACLs")
  else if t.logging then
    .error (.standardAclTerm "Logging is not implemented in standard ACLs")
  else .ok ()

/-- The remark lines of `TermStandard.__str__`. -/
def stdHeadLines (t : PTerm) : List String :=
  ("remark " ++ t.name) ::
    t.comment.flatMap (fun c => (pySplitNl c).map (fun l => "remark " ++ l))

/-- The per-address lines of `TermStandard.__str__`: IPv6 addresses are
skipped (with a logged diagnostic); a /32 renders bare, otherwise
network + hostmask. -/
def stdAddrLines (t : PTerm) (filter_name : String) : List String :=
  t.address.filterMap (fun addr =>
    if addr.family = 6 then none
    else if addr.prefixlen = 32 then
      some ("access-list " ++ filter_name ++ " " ++ actionStr t ++ " " ++ addr.ip)
    else
      some ("access-list " ++ filter_name ++ " " ++ actionStr t ++ " "
              ++ addr.network ++ " " ++ addr.hostmask))

/-- The body of `TermStandard.__str__` (construction checks already done). -/
def TermStandard.renderBody (t : PTerm) (filter_name : String) : String :=
  if !t.verbatim.isEmpty then
    pyJoin "\n" (stdHeadLines t ++ verbatimFirst t.verbatim)
  else
    pyJoin "\n" (stdHeadLines t ++ stdAddrLines t filter_name)

/-- `str(TermStandard(term, filter_name))`: construction-time validation,
then rendering. -/
def termStandardRender (t : PTerm) (filter_name : String) : Except CiscoError String :=
  match termStandardCheck t with
  | .error e => .error e
  | .ok _ => .ok (TermStandard.renderBody t filter_name)

/-- One address block of `ObjectGroup.__str__` (the source and destination
stanzas are identical): given the term's v4 addresses for one side, emit the
block only when the list is non-empty and its first address's `parent_token`
is unseen. Returns the lines and the updated seen-token set. -/
def ogAddrBlock (addrs : List Addr) (seen : List String) :
    List String × List String :=
  match addrs with
  | [] => ([], seen)
  | a :: rest =>
    if seen.contains a.parent_token then ([], seen)
    else
      (("object-group ip address " ++ a.parent_token)
          :: ((a :: rest).map (fun addr => " " ++ addr.ip ++ " " ++ addr.netmask))
          ++ ["exit\n"],
        a.parent_token :: seen)

/-- Port blocks of `ObjectGroup.__str__` for one term: one block per unseen
`low-high` key across the term's source followed by destination ports. -/
def ogPortBlocks (ports : List (Nat × Nat)) (seen : List String) :
    List String × List String :=
  match ports with
  | [] => ([], seen)
  | p :: rest =>
    let key := toString p.1 ++ "-" ++ toString p.2
    if seen.contains key then ogPortBlocks rest seen
    else
      let r := ogPortBlocks rest (key :: seen)
      (("object-group ip port " ++ key)
          :: (if p.1 ≠ p.2 then " range " ++ toString p.1 ++ " " ++ toString p.2
              else " eq " ++ toString p.1)
          :: "exit\n" :: r.1,
        r.2)

/-- The per-term loop of `ObjectGroup.__str__`, threading the two seen-token
dictionaries (`addresses`, `ports`). -/
def objectGroupLines : List PTerm → List String → List String → List String
  | [], _, _ => []
  | t :: ts, seenA, seenP =>
    let s := ogAddrBlock (GetAddressOfVersion t.source_address 4) seenA
    let d := ogAddrBlock (GetAddressOfVersion t.destination_address 4) s.2
    let p := ogPortBlocks (t.source_port ++ t.destination_port) seenP
    s.1 ++ d.1 ++ p.1 ++ objectGroupLines ts d.2 p.2

/-- `ObjectGroup.__str__` over the accumulated terms. -/
def ObjectGroup.render (terms : List PTerm) : String :=
  pyJoin "\n" ("\n" :: objectGroupLines terms [] [])

/-- Modelled from the spec: the synthetic "any" address
`nacaddr.IPv4('0.0.0.0/0', token='ANY')` built by the object-group term
renderer (spec 4.4, nacaddr being an external collaborator). -/
def anyV4 : Addr :=
  { family := 4, ip := "0.0.0.0", network := "0.0.0.0", netmask := "0.0.0.0",
    hostmask := "255.255.255.255", cidr := "0.0.0.0/0", prefixlen := 0,
    numhosts := 4294967296, parent_token := "ANY" }

/-- Python default `[()]` for an unset port list: `none` is the empty-tuple
sentinel. -/
def effPorts (ps : List (Nat × Nat)) : List (Option (Nat × Nat)) :=
  if ps.isEmpty then [none] else ps.map some

/-- `ObjectGroupTerm._TermletToStr`: the address objects are formatted with
`'addrgroup %s'` (via their own `str()`), ports with `'portgroup low-high'`,
the empty port sentinel as empty text. -/
def ogTermletToStr (action : String) (proto : Proto) (saddr : Addr)
    (sport : Option (Nat × Nat)) (daddr : Addr) (dport : Option (Nat × Nat)) : String :=
  let s := "addrgroup " ++ saddr.cidr
  let d := "addrgroup " ++ daddr.cidr
  let sp := match sport with
    | none => ""
    | some pr => "portgroup " ++ toString pr.1 ++ "-" ++ toString pr.2
  let dp := match dport with
    | none => ""
    | some pr => "portgroup " ++ toString pr.1 ++ "-" ++ toString pr.2
  " " ++ action ++ " " ++ protoToStr proto ++ " " ++ s ++ " " ++ sp ++ " "
    ++ d ++ " " ++ dp

/-- The remark lines of `ObjectGroupTerm.__str__` (starting with the
initial `'\n'` element). -/
def ogtHeadLines (t : PTerm) : List String :=
  "\n" :: ("remark " ++ t.name) ::
    t.comment.flatMap (fun c => (pySplitNl c).map (fun l => "remark " ++ l))

/-- The statement lines of `ObjectGroupTerm.__str__`: protocol defaults to
`['ip']` or is fixed up; empty addresses default to the synthetic ANY
address; the loop nests source, destination, source port, destination port,
protocol. -/
def ogtStmtLines (t : PTerm) : List String :=
  let protocol := if t.protocol.isEmpty then [Proto.str "ip"]
                  else t.protocol.map FixupProtocol
  let source_address := if t.source_address.isEmpty then [anyV4] else t.source_address
  let destination_address :=
    if t.destination_address.isEmpty then [anyV4] else t.destination_address
  source_address.flatMap (fun saddr =>
    destination_address.flatMap (fun daddr =>
      (effPorts t.source_port).flatMap (fun sport =>
        (effPorts t.destination_port).flatMap (fun dport =>
          protocol.map (fun proto =>
            ogTermletToStr (actionStr t) proto saddr sport daddr dport)))))

/-- `ObjectGroupTerm.__str__`. -/
def ObjectGroupTerm.render (t : PTerm) ( _filter_name : String) : String :=
  if !t.verbatim.isEmpty then
    pyJoin "\n" (ogtHeadLines t ++ verbatimFirst t.verbatim)
  else
    pyJoin "\n" (ogtHeadLines t ++ ogtStmtLines t)

/-- The remark lines of `Term.__str__` (starting with the initial `'\n'`
element); each comment line is truncated to 100 characters. -/
def termHeadLines (t : PTerm) : List String :=
  "\n" :: ("remark " ++ t.name) ::
    t.comment.flatMap (fun c => (pySplitNl c).map (fun l => "remark " ++ pyTake l 100))

/-- The protocol list of `Term.__str__`: default `['ip']`, otherwise each
entry passed through `FixupProtocol`. -/
def resolvedProtocols (t : PTerm) : List Proto :=
  if t.protocol.isEmpty then [Proto.str "ip"] else t.protocol.map FixupProtocol

/-- The option keywords accumulated by `Term.__str__`: `established` once per
term option starting with `tcp-established` or `established` when protocol 6
is present, then `log` when the term has the logging flag. -/
def termOptions (t : PTerm) (protocol : List Proto) : List String :=
  (t.option.flatMap (fun opt =>
      if pyStartsWith opt "tcp-established" && protocol.contains (Proto.num 6) then
        ["established"]
      else if pyStartsWith opt "established" && protocol.contains (Proto.num 6) then
        ["established"]
      else []))
    ++ (if t.logging then ["log"] else [])

/-- Effective addresses of one side of `Term.__str__`: family-filtered, with
the exclusion set subtracted when non-empty; an unset side yields the string
sentinel `'any'`, embedded as `none`. -/
def effAddrs (excl : ExclFn) (addrs exAddrs : List Addr) (af : Nat) :
    List (Option Addr) :=
  if !addrs.isEmpty then
    let a := GetAddressOfVersion addrs af
    let x := GetAddressOfVersion exAddrs af
    (if !x.isEmpty then excl a x else a).map some
  else [none]

/-- The family test of the `do_output` guard: a concrete address must have the
given family; the `'any'` sentinel passes both. -/
def afIs (fam : Nat) (a : Option Addr) : Bool :=
  match a with
  | none => true
  | some addr => addr.family == fam

/-- The `do_output` guard of `Term.__str__` (lines 412-420): output only
address-family-appropriate combinations. -/
def doOutput (af : Nat) (s d : Option Addr) : Bool :=
  (af == 4 && afIs 4 s && afIs 4 d) || (af == 6 && afIs 6 s && afIs 6 d)

/-- `Term._TermletToStr`: one cisco acl line. -/
def TermletToStr (action : String) (proto : Proto) (saddr : Option Addr)
    (sport : Option (Nat × Nat)) (daddr : Option Addr) (dport : Option (Nat × Nat))
    (opts : List String) : String :=
  let s := match saddr with
    | none => "any"
    | some a =>
      if a.family = 4 then
        (if a.numhosts > 1 then a.ip ++ " " ++ a.hostmask else "host " ++ a.ip)
      else if a.family = 6 then
        (if a.numhosts > 1 then a.ip ++ "/" ++ toString a.prefixlen else "host " ++ a.ip)
      else a.cidr
  let d := match daddr with
    | none => "any"
    | some a =>
      if a.family = 4 then
        (if a.numhosts > 1 then a.ip ++ " " ++ a.hostmask else "host " ++ a.ip)
      else if a.family = 6 then
        (if a.numhosts > 1 then a.ip ++ "/" ++ toString a.prefixlen else "host " ++ a.ip)
      else a.cidr
  let sp := match sport with
    | none => ""
    | some pr =>
      if pr.1 ≠ pr.2 then "range " ++ toString pr.1 ++ " " ++ toString pr.2
      else "eq " ++ toString pr.1
  let dp := match dport with
    | none => ""
    | some pr =>
      if pr.1 ≠ pr.2 then "range " ++ toString pr.1 ++ " " ++ toString pr.2
      else "eq " ++ toString pr.1
  let optList := if opts.isEmpty then [""] else opts
  " " ++ action ++ " " ++ protoToStr proto ++ " " ++ s ++ " " ++ sp ++ " "
    ++ d ++ " " ++ dp ++ " " ++ pyJoin " " optList

/-- The statement lines of `Term.__str__`: the cartesian loop over source
address, destination address, source port, destination port and protocol,
guarded by `do_output`. `af` is the (already normalised) `self.af`. -/
def termStmtLines (excl : ExclFn) (t : PTerm) (af : Nat) : List String :=
  let protocol := resolvedProtocols t
  let opts := termOptions t protocol
  (effAddrs excl t.source_address t.source_address_exclude af).flatMap (fun saddr =>
    (effAddrs excl t.destination_address t.destination_address_exclude af).flatMap (fun daddr =>
      (effPorts t.source_port).flatMap (fun sport =>
        (effPorts t.destination_port).flatMap (fun dport =>
          protocol.filterMap (fun proto =>
            if doOutput af saddr daddr then
              some (TermletToStr (actionStr t) proto saddr sport daddr dport opts)
            else none)))))

/-- `str(Term(term, af))`: `Term.__init__` forces `self.af` to 4 unless
explicitly 6, then `Term.__str__` renders remarks, the verbatim
short-circuit, or the statement lines. -/
def Term.render (excl : ExclFn) (t : PTerm) (af : Nat) : String :=
  let afN := if af = 6 then 6 else 4
  if !t.verbatim.isEmpty then
    pyJoin "\n" (termHeadLines t ++ verbatimFirst t.verbatim)
  else
    pyJoin "\n" (termHeadLines t ++ termStmtLines excl t afN)

/-- The `established` preprocessing of `Cisco.__init__` on one term: one
`(1024, 65535)` destination port range appended per option starting with
`established`. -/
def establishedFix (t : PTerm) : PTerm :=
  { t with destination_port :=
      t.destination_port ++
        t.option.filterMap (fun opt =>
          if pyStartsWith opt "established" then some (1024, 65535) else none) }

/-- `Cisco.__init__`: raise `NoCiscoPolicyError` at the first header whose
platform list lacks `'cisco'`; otherwise keep the policy after the
`established` port preprocessing of every term of every filter. -/
def Cisco.mk (pol : Policy) : Except CiscoError Policy :=
  match pol.headers.find? (fun h => !h.platforms.contains "cisco") with
  | some h => .error (.noCiscoPolicy ("no cisco policy found in " ++ h.target))
  | none =>
    .ok { filters := pol.filters.map (fun f => (f.1, f.2.map establishedFix)) }

/-- The renderable filter types (`good_filters`). -/
def good_filters : List String :=
  ["extended", "standard", "object-group", "inet6", "mixed"]

/-- The body of the `for filter_type in filter_list` loop of `Cisco.__str__`
for one resolved filter type: name validation, preamble, header remarks, the
terms, and the trailing `'\n'` element. Also returns the terms handed to the
object-group collector. -/
def renderFilterType (excl : ExclFn) (filter_name : String)
    (header_comment : List String) (terms : List PTerm) (ft : String) :
    Except CiscoError (List String × List PTerm) := do
  let pre ←
    if ft = "extended" then
      if pyIsDigit filter_name && (1 ≤ pyInt filter_name && pyInt filter_name ≤ 99) then
        Except.error (.unsupportedCiscoAccessList
          "access-lists between 1-99 are reservered for standard ACLs")
      else
        pure ["no ip access-list extended " ++ filter_name,
              "ip access-list extended " ++ filter_name]
    else if ft = "standard" then
      if !pyIsDigit filter_name then
        Except.error (.unsupportedCiscoAccessList
          "standard access lists must be numbered between 1 - 99")
      else if pyIsDigit filter_name
          && !(1 ≤ pyInt filter_name && pyInt filter_name ≤ 99) then
        Except.error (.unsupportedCiscoAccessList
          "standard access lists must be numbered between 1 - 99")
      else pure ["no ip access-list " ++ filter_name]
    else if ft = "object-group" then
      pure ["no ip access-list extended " ++ filter_name,
            "ip access-list extended " ++ filter_name]
    else if ft = "inet6" then
      pure ["no ipv6 access-list " ++ filter_name,
            "ipv6 access-list " ++ filter_name]
    else pure []
  let remarks := header_comment.flatMap
    (fun c => (pySplitNl c).map (fun l => "remark " ++ l))
  let termLines ← terms.foldlM (fun (acc : List String) t =>
    if ft = "standard" then do
      let s ← termStandardRender t filter_name
      pure (acc ++ [s])
    else if ft = "extended" then pure (acc ++ [Term.render excl t 4])
    else if ft = "object-group" then
      pure (acc ++ [ObjectGroupTerm.render t filter_name])
    else if ft = "inet6" then pure (acc ++ [Term.render excl t 6])
    else pure acc) []
  let objs := if ft = "object-group" then terms else []
  pure (pre ++ remarks ++ termLines ++ ["\n"], objs)

/-- `Cisco.__str__`: the two p4 marker lines, then the per-filter loop — whose
body ends in `return`, so only the first declared filter is ever processed
(`none` models the implicit `None` return on an empty filter list). The
object-group definitions, when any terms were collected, are prepended before
the header is put first. -/
def ciscoStr (excl : ExclFn) (pol : Policy) : Except CiscoError (Option String) :=
  match pol.filters with
  | [] => .ok none
  | (header, terms) :: _ => do
    let target_header := ["! $Id:$", "! $Date:$"]
    let filter_name := header.filterName
    let filter_type :=
      if header.filterOptions.length > 1 then header.filterOptions.getD 1 "extended"
      else "extended"
    if !good_filters.contains filter_type then
      Except.error (.unsupportedCiscoAccessList
        "only access list types ['extended', 'standard', 'object-group', 'inet6', 'mixed'] are supported")
    else do
      let filter_list := if filter_type = "mixed" then ["extended", "inet6"]
                         else [filter_type]
      let acc ← filter_list.foldlM
        (fun (acc : List String × List PTerm) ft => do
          let r ← renderFilterType excl filter_name header.comment terms ft
          pure (acc.1 ++ r.1, acc.2 ++ r.2)) ([], [])
      let target := if acc.2.length > 0 then ObjectGroup.render acc.2 :: acc.1
                    else acc.1
      pure (some (pyJoin "\n" (target_header ++ target)))

/-- The end-to-end pipeline: `str(Cisco(pol))`. -/
def RenderACL (excl : ExclFn) (pol : Policy) : Except CiscoError (Option String) :=
  (Cisco.mk pol).bind (ciscoStr excl)

theorem str_data_append (a b : String) : (a ++ b).data = a.data ++ b.data := by
  cases a
  cases b
  rfl

theorem str_data_inj {a b : String} (h : a.data = b.data) : a = b := by
  cases a
  cases b
  exact congrArg String.mk h

theorem str_append_left_cancel {s a b : String} (h : s ++ a = s ++ b) : a = b := by
  have hd := congrArg String.data h
  rw [str_data_append, str_data_append] at hd
  exact str_data_inj (List.append_cancel_left hd)

theorem str_ne_of_getElem (n : Nat) {a b : String} {x y : Char}
    (ha : a.data[n]? = some x) (hb : b.data[n]? = some y) (hxy : x ≠ y) : a ≠ b := by
  intro h
  rw [h] at ha
  rw [ha] at hb
  exact hxy (Option.some.inj hb)

theorem hasSub_append_left (x a b : String) (h : hasSub x b) : hasSub x (a ++ b) := by
  obtain ⟨s, t, hst⟩ := h
  refine ⟨a.data ++ s, t, ?_⟩
  rw [str_data_append, ← hst]
  simp [List.append_assoc]

theorem hasSub_pyJoin (sep : String) (l : List String) (x : String) (hx : x ∈ l) :
    hasSub x (pyJoin sep l) := by
  induction l with
  | nil => cases hx
  | cons a rest ih =>
    cases rest with
    | nil =>
      rcases List.mem_singleton.mp hx with rfl
      exact ⟨[], [], by simp [pyJoin]⟩
    | cons b t =>
      rcases List.mem_cons.mp hx with rfl | hx'
      · refine ⟨[], (sep ++ pyJoin sep (b :: t)).data, ?_⟩
        show [] ++ x.data ++ (sep ++ pyJoin sep (b :: t)).data = (pyJoin sep (x :: b :: t)).data
        simp only [pyJoin, str_data_append, List.nil_append, List.append_assoc]
      · have hsub := ih hx'
        have : pyJoin sep (a :: b :: t) = (a ++ sep) ++ pyJoin sep (b :: t) := by
          simp [pyJoin, str_data_append]
        rw [this]
        exact hasSub_append_left x (a ++ sep) _ hsub

/-- An empty policy term: every attribute unset except a name and `accept`. -/
def emptyTerm : PTerm :=
  { name := "t", comment := [], action := ["accept"], protocol := [],
    source_address := [], source_address_exclude := [],
    destination_address := [], destination_address_exclude := [],
    source_port := [], destination_port := [], option := [],
    verbatim := [], address := [], logging := false, counter := false }

/-- The term of the spec's end-to-end example. -/
def allowWeb : PTerm :=
  { emptyTerm with
    name := "allow-web", protocol := [.str "tcp"], destination_port := [(80, 80)] }

/-- A cisco header declaring the filter `test-filter` of subtype `extended`. -/
def hdrTestFilter : Header :=
  { platforms := ["cisco"], target := "cisco test-filter extended",
    comment := [], filterOptions := ["test-filter", "extended"],
    filterName := "test-filter" }

/-- The single-filter policy of the spec's end-to-end example. -/
def polTestFilter : Policy := { filters := [(hdrTestFilter, [allowWeb])] }

/-- The document the pipeline produces for `polTestFilter`. -/
def docTestFilter : String :=
  "! $Id:$\n! $Date:$\nno ip access-list extended test-filter\nip access-list extended test-filter\n\n\nremark allow-web\n permit 6 any  any eq 80 \n\n"

/-- A header that does not target cisco. -/
def hdrJuniper : Header :=
  { platforms := ["juniper"], target := "juniper jf",
    comment := [], filterOptions := ["jf"], filterName := "jf" }

/-- A two-filter policy whose first header targets cisco and whose second does
not. -/
def polMixedHeaders : Policy :=
  { filters := [(hdrTestFilter, [allowWeb]), (hdrJuniper, [])] }

/-- A term carrying two options that begin with `established`. -/
def twoEstTerm : PTerm := { emptyTerm with option := ["established", "established"] }

/-- A single-filter policy containing `twoEstTerm`. -/
def polTwoEst : Policy := { filters := [(hdrTestFilter, [twoEstTerm])] }

/-- A term whose verbatim list has a non-cisco first entry and a cisco second
entry. -/
def twoVerbatimTerm : PTerm :=
  { emptyTerm with
    name := "vterm", verbatim := [⟨"juniper", "vx"⟩, ⟨"cisco", "vy"⟩] }

/-- A cisco header declaring the numeric filter name `50` with subtype
`object-group`. -/
def hdrOG50 : Header :=
  { platforms := ["cisco"], target := "cisco 50 object-group",
    comment := [], filterOptions := ["50", "object-group"], filterName := "50" }

/-- A single-filter policy: the filter `50` of subtype `object-group`, no
terms. -/
def polOG50 : Policy := { filters := [(hdrOG50, [])] }

/-- A tcp term carrying the `established` option. -/
def tcpEstTerm : PTerm :=
  { emptyTerm with protocol := [.str "tcp"], option := ["established"] }

/-- C1: for every policy whose filters list contains two or more
(header, terms) pairs, `Cisco.__str__` returns after fully processing only the
first declared filter — its output equals the output for the policy containing
only that first filter, so no later filter contributes anything. -/
theorem cisco_str_first_filter_only (excl : ExclFn) (pol : Policy)
    (f1 f2 : Header × List PTerm) (rest : List (Header × List PTerm))
    (h : pol.filters = f1 :: f2 :: rest) :
    ciscoStr excl pol = ciscoStr excl { filters := [f1] } := by
  obtain ⟨hd, ts⟩ := f1
  cases pol
  simp only at h
  subst h
  rfl

/-- Witness for `cisco_str_first_filter_only` at a concrete two-filter
policy. -/
theorem cisco_str_first_filter_only_witness :
    ciscoStr exclKeep polMixedHeaders =
      ciscoStr exclKeep { filters := [(hdrTestFilter, [allowWeb])] } :=
  cisco_str_first_filter_only exclKeep polMixedHeaders
    (hdrTestFilter, [allowWeb]) (hdrJuniper, []) [] rfl

/-- C2 counterexample: a policy whose first header names cisco and whose
second does not still raises `NoCiscoPolicyError` at construction, refuting
"a policy in which at least one header names 'cisco' constructs without this
error". -/
theorem cisco_mk_raises_despite_cisco_header :
    Cisco.mk polMixedHeaders =
      .error (.noCiscoPolicy "no cisco policy found in juniper jf") := by
  rfl

/-- C2 amended: construction raises `NoCiscoPolicyError` if and only if some
header of the policy does not name the platform `cisco` (so it requires every
header to name cisco, not merely one); the check happens in `__init__`, before
the established-port preprocessing and before any rendering. -/
theorem cisco_mk_error_iff (pol : Policy) :
    (∃ e, Cisco.mk pol = .error e) ↔
      ∃ h ∈ pol.headers, h.platforms.contains "cisco" = false := by
  unfold Cisco.mk
  constructor
  · rintro ⟨e, he⟩
    cases hf : pol.headers.find? (fun h => !h.platforms.contains "cisco") with
    | none => rw [hf] at he; exact absurd he (by simp)
    | some h =>
      have hp := List.find?_some hf
      have hmem := List.mem_of_find?_eq_some hf
      exact ⟨h, hmem, by simpa using hp⟩
  · rintro ⟨h, hmem, hc⟩
    cases hf : pol.headers.find? (fun hh => !hh.platforms.contains "cisco") with
    | none =>
      exfalso
      have hmm := List.find?_eq_none.mp hf h hmem
      have hnm : "cisco" ∉ h.platforms := by simpa using hc
      exact hnm (by simpa using hmm)
    | some h' => exact ⟨_, rfl⟩

/-- C10: `FixupProtocol` is total (never raises); a non-string (numeric)
protocol passes through unchanged; a string resolvable through the protocol
table maps to its number; an unresolvable string — in particular the literal
`ip` — passes through unchanged. -/
theorem fixup_protocol_spec :
    (∀ n : Nat, FixupProtocol (.num n) = .num n)
    ∧ (∀ (s : String) (k : Nat), getprotobyname (pyLower s) = some k →
        FixupProtocol (.str s) = .num k)
    ∧ (∀ s : String, getprotobyname (pyLower s) = none →
        FixupProtocol (.str s) = .str s)
    ∧ FixupProtocol (.str "ip") = .str "ip" := by
  refine ⟨fun n => rfl, fun s k hk => ?_, fun s hs => ?_, by decide⟩
  · simp [FixupProtocol, hk]
  · simp [FixupProtocol, hs]

/-- Witness for `fixup_protocol_spec`: `'Tcp'` resolves to protocol 6. -/
theorem fixup_protocol_spec_witness :
    FixupProtocol (.str "Tcp") = .num 6 :=
  fixup_protocol_spec.2.1 "Tcp" 6 (by decide)

/-- C9 counterexample: on a term whose verbatim list is
`[('juniper','vx'), ('cisco','vy')]` the renderers emit neither the cisco
entry's raw text `vy` nor any normal statement line — the loop returns after
examining only the first entry — refuting "if some verbatim entry targets
platform 'cisco', the renderers emit that entry's raw text". -/
theorem verbatim_cisco_entry_not_emitted :
    Term.render exclKeep twoVerbatimTerm 4 = "\n\nremark vterm"
    ∧ ¬ hasSub "vy" (Term.render exclKeep twoVerbatimTerm 4)
    ∧ TermStandard.renderBody twoVerbatimTerm "99" = "remark vterm"
    ∧ ObjectGroupTerm.render twoVerbatimTerm "f" = "\n\nremark vterm" := by
  refine ⟨rfl, by decide, rfl, rfl⟩

/-- C9 amended: whenever a term's verbatim list is non-empty, each of the
three renderers emits only the remark lines plus — when the *first* verbatim
entry targets `cisco` — that first entry's raw text, and skips all normal
statement rendering; entries after the first are never examined. Normal
rendering proceeds only when the verbatim list is empty. -/
theorem verbatim_short_circuit (excl : ExclFn) (t : PTerm) (fn : String)
    (af : Nat) (hv : t.verbatim ≠ []) :
    Term.render excl t af = pyJoin "\n" (termHeadLines t ++ verbatimFirst t.verbatim)
    ∧ TermStandard.renderBody t fn =
        pyJoin "\n" (stdHeadLines t ++ verbatimFirst t.verbatim)
    ∧ ObjectGroupTerm.render t fn =
        pyJoin "\n" (ogtHeadLines t ++ verbatimFirst t.verbatim)
    ∧ ∀ v rest, t.verbatim = v :: rest →
        verbatimFirst t.verbatim = if v.platform = "cisco" then [v.text] else [] := by
  obtain ⟨v, rest, hvr⟩ : ∃ v rest, t.verbatim = v :: rest := by
    cases hx : t.verbatim with
    | nil => exact absurd hx hv
    | cons a l => exact ⟨a, l, rfl⟩
  refine ⟨?_, ?_, ?_, ?_⟩
  · simp [Term.render, hvr]
  · simp [TermStandard.renderBody, hvr]
  · simp [ObjectGroupTerm.render, hvr]
  · intro v rest hvr
    rw [hvr]
    rfl

/-- Witness for `verbatim_short_circuit` at a concrete term whose first
verbatim entry targets cisco. -/
theorem verbatim_short_circuit_witness :
    Term.render exclKeep
        { emptyTerm with verbatim := [⟨"cisco", "raw line"⟩] } 4 =
      pyJoin "\n"
        (termHeadLines { emptyTerm with verbatim := [⟨"cisco", "raw line"⟩] }
          ++ verbatimFirst [⟨"cisco", "raw line"⟩]) :=
  (verbatim_short_circuit exclKeep
    { emptyTerm with verbatim := [⟨"cisco", "raw line"⟩] } "f" 4 (by decide)).1

/-- C5: constructing a standard-ACL term succeeds exactly when protocol,
the four address fields, options, both port fields, the counter and the
logging flag are all unset — so each of the six source-order sanity checks
raises independently — and a failed check propagates as the error of
`str(TermStandard(...))` before any rendered text is produced. -/
theorem term_standard_validation :
    (∀ t : PTerm, termStandardCheck t = .ok () ↔
      (t.protocol = [] ∧ t.source_address = [] ∧ t.source_address_exclude = []
        ∧ t.destination_address = [] ∧ t.destination_address_exclude = []
        ∧ t.option = [] ∧ t.source_port = [] ∧ t.destination_port = []
        ∧ t.counter = false ∧ t.logging = false))
    ∧ (∀ (t : PTerm) (fn : String) (e : CiscoError),
        termStandardCheck t = .error e → termStandardRender t fn = .error e) := by
  constructor
  · intro t
    constructor
    · intro h
      unfold termStandardCheck at h
      split_ifs at h with h1 h2 h3 h4 h5 h6
      all_goals simp_all [List.isEmpty_iff]
    · rintro ⟨h1, h2, h3, h4, h5, h6, h7, h8, h9, h10⟩
      simp [termStandardCheck, h1, h2, h3, h4, h5, h6, h7, h8, h9, h10]
  · intro t fn e h
    unfold termStandardRender
    rw [h]

/-- Witness for `term_standard_validation`: a term with a protocol set fails
construction with the protocol error, which `str(TermStandard(...))`
propagates. -/
theorem term_standard_validation_witness :
    termStandardRender { emptyTerm with protocol := [.str "tcp"] } "10" =
      .error (.standardAclTerm "Standard ACLs cannot specify protocols") :=
  term_standard_validation.2 { emptyTerm with protocol := [.str "tcp"] } "10"
    (.standardAclTerm "Standard ACLs cannot specify protocols") rfl

/-- C3 counterexample: the filter named `50` of resolved subtype
`object-group` renders end-to-end without any error — the reserved-range
validation exists only for `extended`, refuting the claim that it is raised
for `object-group` filters as well. -/
theorem object_group_name_not_validated :
    RenderACL exclKeep polOG50 =
      .ok (some "! $Id:$\n! $Date:$\nno ip access-list extended 50\nip access-list extended 50\n\n") := by
  rfl

/-- C3 amended: during assembly of a filter, resolved subtype `extended`
raises the reserved-range error when the name is purely numeric in `1..99`;
subtype `standard` raises its numbering error unless the name is purely
numeric in `1..99`; subtype `object-group` performs no name validation at
all; and the name `50` raises as extended while succeeding as standard. -/
theorem filter_name_validation :
    (∀ (excl : ExclFn) (name : String) (cs : List String) (terms : List PTerm),
        (pyIsDigit name && (1 ≤ pyInt name && pyInt name ≤ 99)) = true →
        renderFilterType excl name cs terms "extended" =
          .error (.unsupportedCiscoAccessList
            "access-lists between 1-99 are reservered for standard ACLs"))
    ∧ (∀ (excl : ExclFn) (name : String) (cs : List String) (terms : List PTerm),
        (pyIsDigit name && (1 ≤ pyInt name && pyInt name ≤ 99)) = false →
        renderFilterType excl name cs terms "standard" =
          .error (.unsupportedCiscoAccessList
            "standard access lists must be numbered between 1 - 99"))
    ∧ (∀ (excl : ExclFn) (name : String) (cs : List String),
        (renderFilterType excl name cs [] "object-group").isOk = true)
    ∧ renderFilterType exclKeep "50" [] [] "extended" =
        .error (.unsupportedCiscoAccessList
          "access-lists between 1-99 are reservered for standard ACLs")
    ∧ renderFilterType exclKeep "50" [] [] "standard" =
        .ok (["no ip access-list 50", "\n"], []) := by
  refine ⟨?_, ?_, ?_, by rfl, by rfl⟩
  · intro excl name cs terms h
    simp only [renderFilterType, h]
    rfl
  · intro excl name cs terms h
    by_cases hd : pyIsDigit name = true
    · have hr : (decide (1 ≤ pyInt name) && decide (pyInt name ≤ 99)) = false := by
        rw [hd] at h
        simpa using h
      simp only [renderFilterType, hd, hr]
      rfl
    · have hd' : pyIsDigit name = false := by simpa using hd
      simp only [renderFilterType, hd']
      rfl
  · intro excl name cs
    rfl

/-- C7 counterexample: the end-to-end example renders its statement line with
the protocol's numeric value — `' permit 6 any  any eq 80 '` — so no line of
the document ends in `'permit tcp any eq 80'`; indeed `'permit tcp'` occurs
nowhere in it. -/
theorem extended_no_tcp_keyword_line :
    RenderACL exclKeep polTestFilter = .ok (some docTestFilter)
    ∧ ((pySplitNl docTestFilter).all
        (fun l => !pyEndsWith l "permit tcp any eq 80")) = true
    ∧ ((pySplitNl docTestFilter).all
        (fun l => !(decide (hasSub "permit tcp" l)))) = true := by
  exact ⟨rfl, by decide, by decide⟩

/-- C7 amended: the end-to-end example document contains the line
`ip access-list extended test-filter`, the remark line for `allow-web`, and
the statement line `' permit 6 any  any eq 80 '` (protocol rendered as its
numeric value 6, both addresses as `any`, no source port restriction, with a
trailing space from the empty option list). -/
theorem extended_end_to_end :
    RenderACL exclKeep polTestFilter = .ok (some docTestFilter)
    ∧ "ip access-list extended test-filter" ∈ pySplitNl docTestFilter
    ∧ "remark allow-web" ∈ pySplitNl docTestFilter
    ∧ " permit 6 any  any eq 80 " ∈ pySplitNl docTestFilter := by
  exact ⟨rfl, by decide, by decide, by decide⟩

theorem filterMap_ite_const_replicate (p : String → Bool) (c : Nat × Nat)
    (l : List String) :
    (l.filterMap fun o => if p o then some c else none) =
      List.replicate (l.countP p) c := by
  induction l with
  | nil => rfl
  | cons a t ih =>
    by_cases hp : p a = true
    · simp [List.filterMap_cons, hp, List.countP_cons, ih, List.replicate_succ]
    · simp only [Bool.not_eq_true] at hp
      simp [List.filterMap_cons, hp, List.countP_cons, ih]

theorem established_mem_termOptions (t : PTerm) (R : List Proto)
    (h6 : R.contains (Proto.num 6) = true)
    (hopt : ∃ o ∈ t.option, pyStartsWith o "established" = true
        ∨ pyStartsWith o "tcp-established" = true) :
    "established" ∈ termOptions t R := by
  obtain ⟨o, ho, hcase⟩ := hopt
  have hm : Proto.num 6 ∈ R := by simpa using h6
  unfold termOptions
  apply List.mem_append_left
  apply List.mem_flatMap.mpr
  refine ⟨o, ho, ?_⟩
  rcases hcase with h1 | h2
  · by_cases htcp : pyStartsWith o "tcp-established" = true
    · simp [htcp, hm]
    · simp only [Bool.not_eq_true] at htcp
      simp [htcp, h1, hm]
  · simp [h2, hm]

theorem termStmtLines_shape (excl : ExclFn) (t : PTerm) (af : Nat)
    (line : String) (hline : line ∈ termStmtLines excl t af) :
    ∃ s d sp dp pr, line =
      TermletToStr (actionStr t) pr s sp d dp
        (termOptions t (resolvedProtocols t)) := by
  simp only [termStmtLines] at hline
  rcases List.mem_flatMap.mp hline with ⟨s, _, hline⟩
  rcases List.mem_flatMap.mp hline with ⟨d, _, hline⟩
  rcases List.mem_flatMap.mp hline with ⟨sp, _, hline⟩
  rcases List.mem_flatMap.mp hline with ⟨dp, _, hline⟩
  rcases List.mem_filterMap.mp hline with ⟨pr, _, heq⟩
  by_cases hc : doOutput af s d = true
  · rw [if_pos hc] at heq
    exact ⟨s, d, sp, dp, pr, (Option.some.inj heq).symm⟩
  · rw [if_neg hc] at heq
    cases heq

theorem hasSub_TermletToStr (action : String) (pr : Proto) (s : Option Addr)
    (sp : Option (Nat × Nat)) (d : Option Addr) (dp : Option (Nat × Nat))
    (opts : List String) (hmem : "established" ∈ opts) :
    hasSub "established" (TermletToStr action pr s sp d dp opts) := by
  have hne : opts.isEmpty = false := by
    cases opts with
    | nil => cases hmem
    | cons a l => rfl
  simp only [TermletToStr, hne, Bool.false_eq_true, if_false]
  exact hasSub_append_left _ _ _ (hasSub_pyJoin " " opts _ hmem)

/-- C4 counterexample: a term carrying the option list
`['established', 'established']` gets the synthetic destination port range
appended twice by `Cisco.__init__`, refuting "appended exactly once". -/
theorem established_appended_twice :
    Cisco.mk polTwoEst =
      .ok { filters := [(hdrTestFilter,
        [{ twoEstTerm with
            destination_port := [(1024, 65535), (1024, 65535)] }])] } := by
  rfl

/-- C4 amended: at construction, each term of each filter gets one copy of the
synthetic destination port range `(1024, 65535)` appended per option beginning
with `established` (hence exactly once when exactly one such option is
carried), before any rendering; in the extended rendering, when protocol 6 is
among the resolved protocols and the term carries an option beginning with
`established` or `tcp-established`, every emitted statement line contains the
keyword `established`; and when protocol 6 is absent (e.g. a UDP-only term)
the keyword `established` is never among the rendered options. -/
theorem established_preprocessing :
    (∀ t : PTerm, (establishedFix t).destination_port =
        t.destination_port ++
          List.replicate (t.option.countP (fun o => pyStartsWith o "established"))
            (1024, 65535))
    ∧ (∀ pol pol' : Policy, Cisco.mk pol = .ok pol' →
        pol'.filters = pol.filters.map (fun f => (f.1, f.2.map establishedFix)))
    ∧ (∀ (excl : ExclFn) (t : PTerm) (af : Nat) (line : String),
        (resolvedProtocols t).contains (Proto.num 6) = true →
        (∃ o ∈ t.option, pyStartsWith o "established" = true
            ∨ pyStartsWith o "tcp-established" = true) →
        line ∈ termStmtLines excl t af → hasSub "established" line)
    ∧ (∀ t : PTerm, (resolvedProtocols t).contains (Proto.num 6) = false →
        "established" ∉ termOptions t (resolvedProtocols t)) := by
  refine ⟨?_, ?_, ?_, ?_⟩
  · intro t
    simp [establishedFix, filterMap_ite_const_replicate]
  · intro pol pol' h
    unfold Cisco.mk at h
    cases hf : pol.headers.find? (fun hh => !hh.platforms.contains "cisco") with
    | some hh => rw [hf] at h; cases h
    | none =>
      rw [hf] at h
      have := Except.ok.inj h
      rw [← this]
  · intro excl t af line h6 hopt hline
    obtain ⟨s, d, sp, dp, pr, rfl⟩ := termStmtLines_shape excl t af line hline
    exact hasSub_TermletToStr _ _ _ _ _ _ _
      (established_mem_termOptions t (resolvedProtocols t) h6 hopt)
  · intro t h6 hmem
    have hm : Proto.num 6 ∉ resolvedProtocols t := by simpa using h6
    unfold termOptions at hmem
    rcases List.mem_append.mp hmem with h | h
    · rcases List.mem_flatMap.mp h with ⟨o, ho, hin⟩
      simp [hm] at hin
    · cases ht : t.logging
      · simp [ht] at h
      · rw [ht] at h
        simp at h

/-- Witness for `established_preprocessing`: a tcp term carrying the
`established` option renders its single statement line with the keyword. -/
theorem established_preprocessing_witness :
    hasSub "established" " permit 6 any  any  established" :=
  established_preprocessing.2.2.1 exclKeep tcpEstTerm 4
    " permit 6 any  any  established" (by decide)
    ⟨"established", by decide, Or.inl (by decide)⟩ (by decide)

theorem length_filterMap_ite {α β : Type} (R : List α) (f : α → β) (c : Bool) :
    (R.filterMap fun pr => if c then some (f pr) else none).length =
      if c then R.length else 0 := by
  cases c
  · induction R with
    | nil => simp
    | cons a t ih => simp [List.filterMap_cons, ih]
  · induction R with
    | nil => simp
    | cons a t ih => simp [List.filterMap_cons, ih]

theorem length_flatMap_const {α β : Type} (L : List α) (F : α → List β) (k : Nat)
    (h : ∀ a, (F a).length = k) : (L.flatMap F).length = L.length * k := by
  induction L with
  | nil => simp
  | cons a t ih =>
    simp only [List.flatMap_cons, List.length_append, h, ih, List.length_cons]
    ring

theorem length_flatMap_ite {α β : Type} (L : List α) (F : α → List β)
    (g : α → Bool) (k : Nat) (h : ∀ a, (F a).length = if g a then k else 0) :
    (L.flatMap F).length = L.countP g * k := by
  induction L with
  | nil => simp
  | cons a t ih =>
    by_cases hg : g a = true
    · simp only [List.flatMap_cons, List.length_append, h, hg, if_true, ih,
        List.countP_cons, hg]
      ring
    · have hg' : g a = false := by simpa using hg
      simp only [List.flatMap_cons, List.length_append, h, hg', ih,
        List.countP_cons]
      simp

theorem cartesian_length (S D : List (Option Addr))
    (P Q : List (Option (Nat × Nat))) (R : List Proto)
    (c : Option Addr → Option Addr → Bool) (g : Option Addr → Bool)
    (hc : ∀ s d, c s d = (g s && g d))
    (mk : Option Addr → Option Addr → Option (Nat × Nat) → Option (Nat × Nat) →
      Proto → String) :
    (S.flatMap fun s => D.flatMap fun d => P.flatMap fun sp =>
        Q.flatMap fun dp => R.filterMap fun pr =>
          if c s d then some (mk s d sp dp pr) else none).length
      = S.countP g * (D.countP g * (P.length * (Q.length * R.length))) := by
  have h2 : ∀ s d, (P.flatMap fun sp => Q.flatMap fun dp =>
      R.filterMap fun pr => if c s d then some (mk s d sp dp pr) else none).length
      = if g s && g d then P.length * (Q.length * R.length) else 0 := by
    intro s d
    have hQ : ∀ sp : Option (Nat × Nat), (Q.flatMap fun dp =>
        R.filterMap fun pr => if c s d then some (mk s d sp dp pr) else none).length
        = Q.length * (if g s && g d then R.length else 0) := by
      intro sp
      refine length_flatMap_const Q _ _ (fun dp => ?_)
      rw [length_filterMap_ite, hc]
    have hP := length_flatMap_const P _ _ hQ
    rw [hP]
    by_cases hgsd : (g s && g d) = true
    · rw [if_pos hgsd, if_pos hgsd]
    · have hgsd' : (g s && g d) = false := by simpa using hgsd
      rw [hgsd']
      simp
  have h1 : ∀ s, (D.flatMap fun d => P.flatMap fun sp => Q.flatMap fun dp =>
      R.filterMap fun pr => if c s d then some (mk s d sp dp pr) else none).length
      = if g s then D.countP g * (P.length * (Q.length * R.length)) else 0 := by
    intro s
    by_cases hs : g s = true
    · rw [if_pos hs]
      refine length_flatMap_ite D _ g _ (fun d => ?_)
      rw [h2 s d, hs]
      simp
    · have hs' : g s = false := by simpa using hs
      rw [hs']
      simp only [if_false, Bool.false_eq_true]
      have := length_flatMap_const D _ 0 (fun d => by rw [h2 s d, hs']; simp)
      simpa using this
  exact length_flatMap_ite S _ g _ h1

/-- C8: for a non-verbatim term, the extended renderer's statement-line list
has length equal to the product of the effective source-address,
destination-address, source-port, destination-port and protocol list lengths,
minus the combinations whose source or destination address family fails the
requested family (the `any` sentinel passing both); hence at most the full
product. Equivalently the length is the product over the family-passing
addresses only. -/
theorem extended_cartesian_count (excl : ExclFn) (t : PTerm) (af : Nat)
    (haf : af = 4 ∨ af = 6) :
    (termStmtLines excl t af).length =
        (effAddrs excl t.source_address t.source_address_exclude af).countP (afIs af)
          * ((effAddrs excl t.destination_address t.destination_address_exclude af).countP (afIs af)
            * ((effPorts t.source_port).length * ((effPorts t.destination_port).length
              * (resolvedProtocols t).length)))
    ∧ (termStmtLines excl t af).length =
        (effAddrs excl t.source_address t.source_address_exclude af).length
          * ((effAddrs excl t.destination_address t.destination_address_exclude af).length
            * ((effPorts t.source_port).length * ((effPorts t.destination_port).length
              * (resolvedProtocols t).length)))
        - ((effAddrs excl t.source_address t.source_address_exclude af).length
              * (effAddrs excl t.destination_address t.destination_address_exclude af).length
            - (effAddrs excl t.source_address t.source_address_exclude af).countP (afIs af)
              * (effAddrs excl t.destination_address t.destination_address_exclude af).countP (afIs af))
          * ((effPorts t.source_port).length * ((effPorts t.destination_port).length
              * (resolvedProtocols t).length))
    ∧ (termStmtLines excl t af).length ≤
        (effAddrs excl t.source_address t.source_address_exclude af).length
          * ((effAddrs excl t.destination_address t.destination_address_exclude af).length
            * ((effPorts t.source_port).length * ((effPorts t.destination_port).length
              * (resolvedProtocols t).length)))
    ∧ (t.verbatim = [] →
        Term.render excl t af =
          pyJoin "\n" (termHeadLines t ++ termStmtLines excl t af)) := by
  have hdo : ∀ s d, doOutput af s d = (afIs af s && afIs af d) := by
    rcases haf with rfl | rfl
    · intro s d
      simp [doOutput]
    · intro s d
      simp [doOutput]
  have hmain : (termStmtLines excl t af).length =
      (effAddrs excl t.source_address t.source_address_exclude af).countP (afIs af)
        * ((effAddrs excl t.destination_address t.destination_address_exclude af).countP (afIs af)
          * ((effPorts t.source_port).length * ((effPorts t.destination_port).length
            * (resolvedProtocols t).length))) := by
    simp only [termStmtLines]
    exact cartesian_length _ _ _ _ _ (doOutput af) (afIs af) hdo _
  have hpa := List.countP_le_length (p := afIs af)
    (l := effAddrs excl t.source_address t.source_address_exclude af)
  have hpb := List.countP_le_length (p := afIs af)
    (l := effAddrs excl t.destination_address t.destination_address_exclude af)
  refine ⟨hmain, ?_, ?_, ?_⟩
  · rw [hmain]
    generalize (effAddrs excl t.source_address t.source_address_exclude af).countP (afIs af) = pa at *
    generalize (effAddrs excl t.destination_address t.destination_address_exclude af).countP (afIs af) = pb at *
    generalize (effAddrs excl t.source_address t.source_address_exclude af).length = a at *
    generalize (effAddrs excl t.destination_address t.destination_address_exclude af).length = b at *
    generalize ((effPorts t.source_port).length * ((effPorts t.destination_port).length
      * (resolvedProtocols t).length)) = K
    have h1 : pa * pb * K ≤ a * b * K :=
      Nat.mul_le_mul_right K (Nat.mul_le_mul hpa hpb)
    calc pa * (pb * K) = pa * pb * K := by ring
      _ = a * b * K - (a * b * K - pa * pb * K) := (Nat.sub_sub_self h1).symm
      _ = a * (b * K) - (a * b - pa * pb) * K := by
          rw [Nat.sub_mul, Nat.mul_assoc]
  · rw [hmain]
    exact Nat.mul_le_mul hpa (Nat.mul_le_mul_right _ hpb)
  · intro hv
    rcases haf with rfl | rfl
    · simp [Term.render, hv]
    · simp [Term.render, hv]

/-- Witness for `extended_cartesian_count`: the end-to-end example term
renders exactly `1*1*1*1*1 = 1` statement line. -/
theorem extended_cartesian_count_witness :
    (termStmtLines exclKeep allowWeb 4).length =
      (effAddrs exclKeep allowWeb.source_address allowWeb.source_address_exclude 4).countP (afIs 4)
        * ((effAddrs exclKeep allowWeb.destination_address allowWeb.destination_address_exclude 4).countP (afIs 4)
          * ((effPorts allowWeb.source_port).length * ((effPorts allowWeb.destination_port).length
            * (resolvedProtocols allowWeb).length))) :=
  (extended_cartesian_count exclKeep allowWeb 4 (Or.inl rfl)).1

theorem addrHdr_inj {a b : String}
    (h : ("object-group ip address " ++ a) = ("object-group ip address " ++ b)) :
    a = b :=
  str_append_left_cancel h

theorem portHdr_ne_addrHdr (k tok : String) :
    ("object-group ip port " ++ k) ≠ ("object-group ip address " ++ tok) := by
  have ha : ("object-group ip port " ++ k).data[16]? = some 'p' := by
    rw [str_data_append]
    rfl
  have hb : ("object-group ip address " ++ tok).data[16]? = some 'a' := by
    rw [str_data_append]
    rfl
  exact str_ne_of_getElem 16 ha hb (by decide)

theorem addrBody_ne_addrHdr (x y tok : String) :
    (" " ++ x ++ " " ++ y) ≠ ("object-group ip address " ++ tok) := by
  have ha : (" " ++ x ++ " " ++ y).data[0]? = some ' ' := by
    rw [str_data_append, str_data_append, str_data_append]
    simp [show (" ".data : List Char) = [' '] from rfl]
  have hb : ("object-group ip address " ++ tok).data[0]? = some 'o' := by
    rw [str_data_append]
    rfl
  exact str_ne_of_getElem 0 ha hb (by decide)

theorem exit_ne_addrHdr (tok : String) :
    "exit\n" ≠ ("object-group ip address " ++ tok) := by
  have ha : ("exit\n").data[0]? = some 'e' := rfl
  have hb : ("object-group ip address " ++ tok).data[0]? = some 'o' := by
    rw [str_data_append]
    rfl
  exact str_ne_of_getElem 0 ha hb (by decide)

theorem addrBody_ne_portHdr (x y key : String) :
    (" " ++ x ++ " " ++ y) ≠ ("object-group ip port " ++ key) := by
  have ha : (" " ++ x ++ " " ++ y).data[0]? = some ' ' := by
    rw [str_data_append, str_data_append, str_data_append]
    simp [show (" ".data : List Char) = [' '] from rfl]
  have hb : ("object-group ip port " ++ key).data[0]? = some 'o' := by
    rw [str_data_append]
    rfl
  exact str_ne_of_getElem 0 ha hb (by decide)

theorem exit_ne_portHdr (key : String) :
    "exit\n" ≠ ("object-group ip port " ++ key) := by
  have ha : ("exit\n").data[0]? = some 'e' := rfl
  have hb : ("object-group ip port " ++ key).data[0]? = some 'o' := by
    rw [str_data_append]
    rfl
  exact str_ne_of_getElem 0 ha hb (by decide)

theorem rangeLine_ne_portHdr (x y key : String) :
    (" range " ++ x ++ " " ++ y) ≠ ("object-group ip port " ++ key) := by
  have ha : (" range " ++ x ++ " " ++ y).data[0]? = some ' ' := by
    rw [str_data_append, str_data_append, str_data_append]
    simp [show (" range ".data : List Char) = ' ' :: "range ".data from rfl]
  have hb : ("object-group ip port " ++ key).data[0]? = some 'o' := by
    rw [str_data_append]
    rfl
  exact str_ne_of_getElem 0 ha hb (by decide)

theorem eqLine_ne_portHdr (x key : String) :
    (" eq " ++ x) ≠ ("object-group ip port " ++ key) := by
  have ha : (" eq " ++ x).data[0]? = some ' ' := by
    rw [str_data_append]
    simp [show (" eq ".data : List Char) = ' ' :: "eq ".data from rfl]
  have hb : ("object-group ip port " ++ key).data[0]? = some 'o' := by
    rw [str_data_append]
    rfl
  exact str_ne_of_getElem 0 ha hb (by decide)

theorem rangeLine_ne_addrHdr (x y tok : String) :
    (" range " ++ x ++ " " ++ y) ≠ ("object-group ip address " ++ tok) := by
  have ha : (" range " ++ x ++ " " ++ y).data[0]? = some ' ' := by
    rw [str_data_append, str_data_append, str_data_append]
    simp [show (" range ".data : List Char) = ' ' :: "range ".data from rfl]
  have hb : ("object-group ip address " ++ tok).data[0]? = some 'o' := by
    rw [str_data_append]
    rfl
  exact str_ne_of_getElem 0 ha hb (by decide)

theorem eqLine_ne_addrHdr (x tok : String) :
    (" eq " ++ x) ≠ ("object-group ip address " ++ tok) := by
  have ha : (" eq " ++ x).data[0]? = some ' ' := by
    rw [str_data_append]
    simp [show (" eq ".data : List Char) = ' ' :: "eq ".data from rfl]
  have hb : ("object-group ip address " ++ tok).data[0]? = some 'o' := by
    rw [str_data_append]
    rfl
  exact str_ne_of_getElem 0 ha hb (by decide)

theorem ogAddrBlock_count (addrs : List Addr) (seen : List String) (tok : String) :
    ((ogAddrBlock addrs seen).1.count ("object-group ip address " ++ tok) ≤ 1)
    ∧ (tok ∈ seen →
        (ogAddrBlock addrs seen).1.count ("object-group ip address " ++ tok) = 0
          ∧ tok ∈ (ogAddrBlock addrs seen).2)
    ∧ (tok ∉ (ogAddrBlock addrs seen).2 →
        (ogAddrBlock addrs seen).1.count ("object-group ip address " ++ tok) = 0
          ∧ tok ∉ seen) := by
  cases addrs with
  | nil => simp [ogAddrBlock]
  | cons a rest =>
    by_cases hc : seen.contains a.parent_token = true
    · have hm : a.parent_token ∈ seen := by simpa using hc
      simp [ogAddrBlock, hm]
    · have hcf : seen.contains a.parent_token = false := by simpa using hc
      have hanm : a.parent_token ∉ seen := by simpa using hcf
      simp only [ogAddrBlock, hcf, Bool.false_eq_true, if_false]
      have hbody : (List.map (fun addr => " " ++ addr.ip ++ " " ++ addr.netmask)
          (a :: rest)).count ("object-group ip address " ++ tok) = 0 := by
        rw [List.count_eq_zero]
        intro hmem
        rcases List.mem_map.mp hmem with ⟨ad, _, heq⟩
        exact addrBody_ne_addrHdr ad.ip ad.netmask tok heq
      have hexit : (["exit\n"].count ("object-group ip address " ++ tok)) = 0 := by
        rw [List.count_eq_zero]
        intro hmem
        exact exit_ne_addrHdr tok (List.mem_singleton.mp hmem).symm
      refine ⟨?_, ?_, ?_⟩
      · rw [List.count_append, List.count_cons, hbody, hexit]
        split
        · omega
        · omega
      · intro hseen
        have hne : a.parent_token ≠ tok := fun he => hanm (he ▸ hseen)
        refine ⟨?_, List.mem_cons_of_mem _ hseen⟩
        rw [List.count_append, List.count_cons, hbody, hexit]
        have hb : (("object-group ip address " ++ a.parent_token)
            == ("object-group ip address " ++ tok)) = false := by
          rw [beq_eq_false_iff_ne]
          intro he
          exact hne (addrHdr_inj he)
        rw [hb]
        simp
      · intro hnm
        have h1 : tok ≠ a.parent_token := fun he => hnm (he ▸ List.mem_cons_self _ _)
        have h2 : tok ∉ seen := fun hs => hnm (List.mem_cons_of_mem _ hs)
        refine ⟨?_, h2⟩
        rw [List.count_append, List.count_cons, hbody, hexit]
        have hb : (("object-group ip address " ++ a.parent_token)
            == ("object-group ip address " ++ tok)) = false := by
          rw [beq_eq_false_iff_ne]
          intro he
          exact h1 (addrHdr_inj he).symm
        rw [hb]
        simp

theorem ogAddrBlock_port_count (addrs : List Addr) (seen : List String)
    (key : String) :
    (ogAddrBlock addrs seen).1.count ("object-group ip port " ++ key) = 0 := by
  cases addrs with
  | nil => simp [ogAddrBlock]
  | cons a rest =>
    by_cases hc : seen.contains a.parent_token = true
    · have hm : a.parent_token ∈ seen := by simpa using hc
      simp [ogAddrBlock, hm]
    · have hcf : seen.contains a.parent_token = false := by simpa using hc
      simp only [ogAddrBlock, hcf, Bool.false_eq_true, if_false]
      rw [List.count_eq_zero]
      intro hmem
      rcases List.mem_append.mp hmem with hm' | hm'
      · rcases List.mem_cons.mp hm' with hm2 | hm2
        · exact portHdr_ne_addrHdr key a.parent_token hm2
        · rcases List.mem_map.mp hm2 with ⟨ad, _, heq⟩
          exact addrBody_ne_portHdr ad.ip ad.netmask key heq
      · exact exit_ne_portHdr key (List.mem_singleton.mp hm').symm

theorem ogPortBlocks_count (ps : List (Nat × Nat)) :
    ∀ (seen : List String) (key : String),
    ((ogPortBlocks ps seen).1.count ("object-group ip port " ++ key) ≤ 1)
    ∧ (key ∈ seen →
        (ogPortBlocks ps seen).1.count ("object-group ip port " ++ key) = 0
          ∧ key ∈ (ogPortBlocks ps seen).2)
    ∧ (key ∉ (ogPortBlocks ps seen).2 →
        (ogPortBlocks ps seen).1.count ("object-group ip port " ++ key) = 0
          ∧ key ∉ seen) := by
  induction ps with
  | nil =>
    intro seen key
    simp [ogPortBlocks]
  | cons p rest ih =>
    intro seen key
    by_cases hc : seen.contains (toString p.1 ++ "-" ++ toString p.2) = true
    · simp only [ogPortBlocks, hc]
      simp only [if_true]
      exact ih seen key
    · have hcf : seen.contains (toString p.1 ++ "-" ++ toString p.2) = false := by
        simpa using hc
      have hknm : (toString p.1 ++ "-" ++ toString p.2) ∉ seen := by simpa using hcf
      simp only [ogPortBlocks, hcf, Bool.false_eq_true, if_false]
      obtain ⟨ih1, ih2, ih3⟩ := ih ((toString p.1 ++ "-" ++ toString p.2) :: seen) key
      have hmid : (if p.1 ≠ p.2 then " range " ++ toString p.1 ++ " " ++ toString p.2
          else " eq " ++ toString p.1) ≠ ("object-group ip port " ++ key) := by
        split
        · exact rangeLine_ne_portHdr _ _ _
        · exact eqLine_ne_portHdr _ _
      have hcnt : ∀ v : List String,
          ((("object-group ip port " ++ (toString p.1 ++ "-" ++ toString p.2))
            :: (if p.1 ≠ p.2 then " range " ++ toString p.1 ++ " " ++ toString p.2
                else " eq " ++ toString p.1)
            :: "exit\n" :: v).count ("object-group ip port " ++ key))
          = v.count ("object-group ip port " ++ key)
            + (if (toString p.1 ++ "-" ++ toString p.2) = key then 1 else 0) := by
        intro v
        simp only [List.count_cons, beq_iff_eq]
        rw [if_neg hmid, if_neg (exit_ne_portHdr key)]
        by_cases hk : (toString p.1 ++ "-" ++ toString p.2) = key
        · rw [if_pos (by rw [hk]), if_pos hk]
        · rw [if_neg (fun he => hk (str_append_left_cancel he)), if_neg hk]
      refine ⟨?_, ?_, ?_⟩
      · rw [hcnt]
        by_cases hk : (toString p.1 ++ "-" ++ toString p.2) = key
        · have hkin : key ∈ (toString p.1 ++ "-" ++ toString p.2) :: seen :=
            List.mem_cons.mpr (Or.inl hk.symm)
          obtain ⟨hz, _⟩ := ih2 hkin
          rw [hz, if_pos hk]
        · rw [if_neg hk]
          simpa using ih1
      · intro hseen
        have hk : (toString p.1 ++ "-" ++ toString p.2) ≠ key := fun he => by
          rw [he] at hknm
          exact hknm hseen
        obtain ⟨hz, hin⟩ := ih2 (List.mem_cons_of_mem _ hseen)
        refine ⟨?_, hin⟩
        rw [hcnt, hz, if_neg hk]
      · intro hnm
        obtain ⟨hz, hnm2⟩ := ih3 hnm
        have hkne : (toString p.1 ++ "-" ++ toString p.2) ≠ key := fun he =>
          hnm2 (List.mem_cons.mpr (Or.inl he.symm))
        refine ⟨?_, fun hs => hnm2 (List.mem_cons_of_mem _ hs)⟩
        rw [hcnt, hz, if_neg hkne]

theorem ogPortBlocks_addr_count (ps : List (Nat × Nat)) :
    ∀ (seen : List String) (tok : String),
    (ogPortBlocks ps seen).1.count ("object-group ip address " ++ tok) = 0 := by
  induction ps with
  | nil =>
    intro seen tok
    simp [ogPortBlocks]
  | cons p rest ih =>
    intro seen tok
    by_cases hc : seen.contains (toString p.1 ++ "-" ++ toString p.2) = true
    · simp only [ogPortBlocks, hc]
      simp only [if_true]
      exact ih seen tok
    · have hcf : seen.contains (toString p.1 ++ "-" ++ toString p.2) = false := by
        simpa using hc
      simp only [ogPortBlocks, hcf, Bool.false_eq_true, if_false]
      have hmid : (if p.1 ≠ p.2 then " range " ++ toString p.1 ++ " " ++ toString p.2
          else " eq " ++ toString p.1) ≠ ("object-group ip address " ++ tok) := by
        split
        · exact rangeLine_ne_addrHdr _ _ _
        · exact eqLine_ne_addrHdr _ _
      simp only [List.count_cons, beq_iff_eq]
      rw [if_neg hmid, if_neg (exit_ne_addrHdr tok),
        if_neg (portHdr_ne_addrHdr (toString p.1 ++ "-" ++ toString p.2) tok)]
      simpa using ih ((toString p.1 ++ "-" ++ toString p.2) :: seen) tok

theorem objectGroupLines_addr_count (ts : List PTerm) :
    ∀ (seenA seenP : List String) (tok : String),
    (objectGroupLines ts seenA seenP).count ("object-group ip address " ++ tok)
      ≤ if tok ∈ seenA then 0 else 1 := by
  induction ts with
  | nil =>
    intro seenA seenP tok
    simp [objectGroupLines]
  | cons t ts ih =>
    intro seenA seenP tok
    simp only [objectGroupLines]
    rw [List.count_append, List.count_append, List.count_append]
    obtain ⟨s1, s2, s3⟩ :=
      ogAddrBlock_count (GetAddressOfVersion t.source_address 4) seenA tok
    obtain ⟨d1, d2, d3⟩ :=
      ogAddrBlock_count (GetAddressOfVersion t.destination_address 4)
        (ogAddrBlock (GetAddressOfVersion t.source_address 4) seenA).2 tok
    have hp0 :=
      ogPortBlocks_addr_count (t.source_port ++ t.destination_port) seenP tok
    have hrec := ih
      (ogAddrBlock (GetAddressOfVersion t.destination_address 4)
        (ogAddrBlock (GetAddressOfVersion t.source_address 4) seenA).2).2
      (ogPortBlocks (t.source_port ++ t.destination_port) seenP).2 tok
    rw [hp0]
    by_cases h0 : tok ∈ seenA
    · obtain ⟨hz1, hin1⟩ := s2 h0
      obtain ⟨hz2, hin2⟩ := d2 hin1
      rw [hz1, hz2, if_pos h0]
      rw [if_pos hin2] at hrec
      omega
    · rw [if_neg h0]
      by_cases h1 : tok ∈ (ogAddrBlock (GetAddressOfVersion t.destination_address 4)
          (ogAddrBlock (GetAddressOfVersion t.source_address 4) seenA).2).2
      · rw [if_pos h1] at hrec
        by_cases h2 : tok ∈ (ogAddrBlock (GetAddressOfVersion t.source_address 4) seenA).2
        · obtain ⟨hz2, _⟩ := d2 h2
          rw [hz2]
          omega
        · obtain ⟨hz1, _⟩ := s3 h2
          rw [hz1]
          omega
      · rw [if_neg h1] at hrec
        obtain ⟨hz2, hnm1⟩ := d3 h1
        obtain ⟨hz1, _⟩ := s3 hnm1
        rw [hz1, hz2]
        omega

theorem objectGroupLines_port_count (ts : List PTerm) :
    ∀ (seenA seenP : List String) (key : String),
    (objectGroupLines ts seenA seenP).count ("object-group ip port " ++ key)
      ≤ if key ∈ seenP then 0 else 1 := by
  induction ts with
  | nil =>
    intro seenA seenP key
    simp [objectGroupLines]
  | cons t ts ih =>
    intro seenA seenP key
    simp only [objectGroupLines]
    rw [List.count_append, List.count_append, List.count_append]
    have ha1 := ogAddrBlock_port_count (GetAddressOfVersion t.source_address 4) seenA key
    have ha2 := ogAddrBlock_port_count (GetAddressOfVersion t.destination_address 4)
      (ogAddrBlock (GetAddressOfVersion t.source_address 4) seenA).2 key
    obtain ⟨p1, p2, p3⟩ :=
      ogPortBlocks_count (t.source_port ++ t.destination_port) seenP key
    have hrec := ih
      (ogAddrBlock (GetAddressOfVersion t.destination_address 4)
        (ogAddrBlock (GetAddressOfVersion t.source_address 4) seenA).2).2
      (ogPortBlocks (t.source_port ++ t.destination_port) seenP).2 key
    rw [ha1, ha2]
    by_cases h0 : key ∈ seenP
    · obtain ⟨hz, hin⟩ := p2 h0
      rw [hz, if_pos h0]
      rw [if_pos hin] at hrec
      omega
    · rw [if_neg h0]
      by_cases h1 : key ∈ (ogPortBlocks (t.source_port ++ t.destination_port) seenP).2
      · rw [if_pos h1] at hrec
        omega
      · obtain ⟨hz, _⟩ := p3 h1
        rw [hz]
        rw [if_neg h1] at hrec
        omega

/-- C6: over any sequence of terms fed to one object-group collector, the
rendered group-definition output contains at most one
`object-group ip address <token>` header per distinct parent token and at
most one `object-group ip port <low>-<high>` header per distinct port pair,
however many terms repeat them; `ObjectGroup.__str__` is exactly the join of
those collector lines. -/
theorem object_group_dedup :
    (∀ (terms : List PTerm) (tok : String),
        (objectGroupLines terms [] []).count ("object-group ip address " ++ tok) ≤ 1)
    ∧ (∀ (terms : List PTerm) (key : String),
        (objectGroupLines terms [] []).count ("object-group ip port " ++ key) ≤ 1)
    ∧ (∀ terms : List PTerm,
        ObjectGroup.render terms = pyJoin "\n" ("\n" :: objectGroupLines terms [] [])) := by
  refine ⟨fun terms tok => ?_, fun terms key => ?_, fun terms => rfl⟩
  · simpa using objectGroupLines_addr_count terms [] [] tok
  · simpa using objectGroupLines_port_count terms [] [] key

/-- Witness for `filter_name_validation`: the numeric name `7` raises the
reserved-range error as an extended filter. -/
theorem filter_name_validation_witness :
    renderFilterType exclKeep "7" [] [] "extended" =
      .error (.unsupportedCiscoAccessList
        "access-lists between 1-99 are reservered for standard ACLs") :=
  filter_name_validation.1 exclKeep "7" [] [] (by decide)
